import Mathlib

/-!
Shallow embedding of the Ethernet frame codec of `go.pkt`
(`packet/eth/pkt.go`), together with a model of the interfaces it consumes
from the `packet` support package (byte cursor, canonical-type registry,
shared layer capability set), which are described by the specification but
whose source is not part of this repository snapshot.

Machine integers (`uint16`) are embedded as `Nat` with explicit `% 65536`
at the arithmetic sites where Go's fixed-width addition can wrap.
-/

namespace Pkt

/-- Modelled from the spec: the canonical cross-protocol type registry
(`packet.Type`). The spec lists the enumerants None, ARP, IPv4, IPv6, LLC,
LLDP, VLAN, TRILL, WoL, Raw and Ethernet as distinct identifiers of a shared
identifier space; their concrete numeric values are not visible in this
repository snapshot, so they are modelled as distinct naturals in the
spec's listing order. -/
def None : Nat := 0

/-- Canonical type for ARP (see `Pkt.None`). -/
def ARP : Nat := 1

/-- Canonical type for IPv4 (see `Pkt.None`). -/
def IPv4 : Nat := 2

/-- Canonical type for IPv6 (see `Pkt.None`). -/
def IPv6 : Nat := 3

/-- Canonical type for LLC (see `Pkt.None`). -/
def LLC : Nat := 4

/-- Canonical type for LLDP (see `Pkt.None`). -/
def LLDP : Nat := 5

/-- Canonical type for VLAN (see `Pkt.None`). -/
def VLAN : Nat := 6

/-- Canonical type for TRILL (see `Pkt.None`). -/
def TRILL : Nat := 7

/-- Canonical type for Wake-on-LAN (see `Pkt.None`). -/
def WoL : Nat := 8

/-- Canonical type for raw/unknown payloads (see `Pkt.None`). -/
def Raw : Nat := 9

/-- Canonical type tag of the Ethernet layer itself (see `Pkt.None`). -/
def Eth : Nat := 10

/-- Error taxonomy of the byte cursor: decode past the available input. -/
inductive Error where
  | bufferUnderrun
deriving DecidableEq, Repr

/-- Modelled from the spec: the byte-buffer/cursor primitive
(`packet.Buffer`). Reads consume bytes from the front, writes append at the
end; position tracking is implicit. Bytes are naturals below 256. -/
structure Buffer where
  data : List Nat
deriving DecidableEq, Repr

/-- Modelled from the spec: `readExactly(n) → slice or error` — the cursor's
fixed-length byte extraction (`Buffer.Next`). Returns the next `n` bytes and
advances by `n`; on underrun it signals failure (`none`) and the cursor is
left unadvanced (on failure its position is implementation-defined). -/
def Buffer.Next (b : Buffer) (n : Nat) : Option (List Nat) × Buffer :=
  if n ≤ b.data.length then (some (b.data.take n), ⟨b.data.drop n⟩)
  else (none, b)

/-- Modelled from the spec: `readUint16BE(&v) → error` — the cursor's
big-endian 16-bit read (`Buffer.ReadI` at a `uint16` target). On underrun it
signals failure and does not write the target. -/
def Buffer.ReadI (b : Buffer) : Option Nat × Buffer :=
  match b.data with
  | b0 :: b1 :: rest => (some (b0 * 256 + b1), ⟨rest⟩)
  | _ => (none, b)

/-- Modelled from the spec: `writeBytes(slice)` — appends raw bytes
(`Buffer.Write`). -/
def Buffer.Write (b : Buffer) (bs : List Nat) : Buffer :=
  ⟨b.data ++ bs⟩

/-- Modelled from the spec: `writeUint16BE(v)` — appends a 16-bit value in
network byte order (`Buffer.WriteI` at a `uint16`). -/
def Buffer.WriteI (b : Buffer) (v : Nat) : Buffer :=
  ⟨b.data ++ [v / 256 % 256, v % 256]⟩

/-- Modelled from the spec: the shared layer capability set
(`packet.Packet` interface), restricted to the operations the Ethernet
codec invokes on its payload: `GetType` (canonical type), `GetLength`
(reported length, a `uint16` value) and `Answers`. A payload of an
arbitrary layer kind is a value of an arbitrary type `α` together with such
a dictionary. -/
structure Iface (α : Type) where
  GetType : α → Nat
  GetLength : α → Nat
  Answers : α → Option α → Bool

end Pkt

namespace Eth

/-- EtherType constant `None` (`0x0000`), from `packet/eth/pkt.go`. -/
def None : Nat := 0x0000

/-- EtherType constant `ARP`, from `packet/eth/pkt.go`. -/
def ARP : Nat := 0x0806

/-- EtherType constant `IPv4`, from `packet/eth/pkt.go`. -/
def IPv4 : Nat := 0x0800

/-- EtherType constant `IPv6`, from `packet/eth/pkt.go`. -/
def IPv6 : Nat := 0x86dd

/-- EtherType constant `LLC` (pseudo ethertype), from `packet/eth/pkt.go`. -/
def LLC : Nat := 0x0001

/-- EtherType constant `LLDP` (source literal `0x088cc`), from
`packet/eth/pkt.go`. -/
def LLDP : Nat := 0x088cc

/-- EtherType constant `QinQ`, from `packet/eth/pkt.go`. -/
def QinQ : Nat := 0x88a8

/-- EtherType constant `TRILL`, from `packet/eth/pkt.go`. -/
def TRILL : Nat := 0x22f3

/-- EtherType constant `VLAN`, from `packet/eth/pkt.go`. -/
def VLAN : Nat := 0x8100

/-- EtherType constant `WoL`, from `packet/eth/pkt.go`. -/
def WoL : Nat := 0x0842

/-- The Ethernet frame (`eth.Packet` struct). `typ` is the Go field `Type`
(an EtherType, `uint16`); `Length` is the cached total length (`uint16`);
the payload is an optional next-layer packet of arbitrary kind `α`. -/
structure Packet (α : Type) where
  DstAddr : List Nat
  SrcAddr : List Nat
  typ : Nat
  Length : Nat
  pkt_payload : Option α
deriving DecidableEq, Repr

/-- `eth.Make`: fresh frame with zero-filled 6-byte addresses, `Length` 14,
zero-valued `Type` (= `Eth.None`) and no payload. -/
def Make {α : Type} : Packet α :=
  { DstAddr := List.replicate 6 0
    SrcAddr := List.replicate 6 0
    typ := Eth.None
    Length := 14
    pkt_payload := none }

/-- `ethertype_to_type_map`: the fixed ordered EtherType/canonical-type
translation table, in source order. -/
def ethertype_to_type_map : List (Nat × Nat) :=
  [ (Eth.None,  Pkt.None),
    (Eth.ARP,   Pkt.ARP),
    (Eth.IPv4,  Pkt.IPv4),
    (Eth.IPv6,  Pkt.IPv6),
    (Eth.LLC,   Pkt.LLC),
    (Eth.LLDP,  Pkt.LLDP),
    (Eth.VLAN,  Pkt.VLAN),
    (Eth.QinQ,  Pkt.VLAN),
    (Eth.TRILL, Pkt.TRILL),
    (Eth.WoL,   Pkt.WoL) ]

/-- The linear forward scan of `EtherTypeToType`: first entry whose
EtherType column matches wins; fallthrough is `packet.Raw`. -/
def lookupFwd : List (Nat × Nat) → Nat → Nat
  | [], _ => Pkt.Raw
  | t :: rest, e => if t.1 = e then t.2 else lookupFwd rest e

/-- `eth.EtherTypeToType`: canonical type from an EtherType. -/
def EtherTypeToType (ethertype : Nat) : Nat :=
  lookupFwd ethertype_to_type_map ethertype

/-- The linear reverse scan of `TypeToEtherType`: first entry whose
canonical-type column matches wins; fallthrough is `eth.None`. -/
def lookupRev : List (Nat × Nat) → Nat → Nat
  | [], _ => Eth.None
  | t :: rest, ty => if t.2 = ty then t.1 else lookupRev rest ty

/-- `eth.TypeToEtherType`: EtherType from a canonical type. -/
def TypeToEtherType (pkttype : Nat) : Nat :=
  lookupRev ethertype_to_type_map pkttype

/-- `(*eth.Packet).GetType`: the Ethernet layer's own canonical tag. -/
def Packet.GetType {α : Type} (_ : Packet α) : Nat :=
  Pkt.Eth

/-- `(*eth.Packet).Payload`. -/
def Packet.Payload {α : Type} (p : Packet α) : Option α :=
  p.pkt_payload

/-- `(*eth.Packet).PayloadType`. -/
def Packet.PayloadType {α : Type} (p : Packet α) : Nat :=
  EtherTypeToType p.typ

/-- `(*eth.Packet).GetLength`: the stored `Length` when the frame is
LLC-typed with nonzero `Length`; otherwise the payload's reported length
plus 14 (`uint16` addition, wrapping), or 14 with no payload. -/
def Packet.GetLength {α : Type} (iface : Pkt.Iface α) (p : Packet α) : Nat :=
  if p.Length > 0 ∧ p.typ = Eth.LLC then p.Length
  else
    match p.pkt_payload with
    | some pl => (iface.GetLength pl + 14) % 65536
    | none => 14

/-- `(*eth.Packet).SetPayload`: stores the payload, derives the EtherType
from the payload's canonical type through the table's reverse direction,
and adds the payload's reported length to the cached `Length` (`uint16`
addition, wrapping). Returns `nil` (no error). -/
def Packet.SetPayload {α : Type} (iface : Pkt.Iface α) (p : Packet α)
    (pl : α) : Option Pkt.Error × Packet α :=
  (none,
   { p with
       pkt_payload := some pl
       typ := TypeToEtherType (iface.GetType pl)
       Length := (p.Length + iface.GetLength pl) % 65536 })

/-- `(*eth.Packet).Pack`: writes destination, source, then either the
EtherType, or the stored `Length` when the frame is LLC-typed. Returns
`nil` (no error). -/
def Packet.Pack {α : Type} (p : Packet α) (raw_pkt : Pkt.Buffer) :
    Option Pkt.Error × Pkt.Buffer :=
  let b1 := raw_pkt.Write p.DstAddr
  let b2 := b1.Write p.SrcAddr
  let b3 := if p.typ ≠ Eth.LLC then b2.WriteI p.typ else b2.WriteI p.Length
  (none, b3)

/-- `(*eth.Packet).Unpack`: reads 6 + 6 bytes into the addresses and a
big-endian 16-bit value into `Type`; a value below `0x0600` is moved into
`Length` and `Type` becomes the LLC sentinel. The source discards the
cursor reads' error returns (a failed read leaves the corresponding Go
field unwritten) and returns `nil` unconditionally. -/
def Packet.Unpack {α : Type} (p : Packet α) (raw_pkt : Pkt.Buffer) :
    Option Pkt.Error × Packet α × Pkt.Buffer :=
  let s1 := raw_pkt.Next 6
  let p1 := match s1.1 with
            | some bs => { p with DstAddr := bs }
            | none => p
  let s2 := s1.2.Next 6
  let p2 := match s2.1 with
            | some bs => { p1 with SrcAddr := bs }
            | none => p1
  let s3 := s2.2.ReadI
  let p3 : Packet α := match s3.1 with
            | some v => { p2 with typ := v }
            | none => p2
  let p4 : Packet α :=
    if p3.typ < 0x0600 then { p3 with Length := p3.typ, typ := Eth.LLC }
    else p3
  (none, p4, s3.2)

/-- A `packet.Packet` interface value handed to `Answers`: either another
Ethernet frame, or a packet of a different layer family carrying its own
canonical tag. A non-Ethernet packet reporting the tag `Pkt.Eth` would make
the source's type assertion panic; packet families report their own tags,
so such values do not arise. -/
inductive PacketOrOther (α : Type) where
  | eth : Packet α → PacketOrOther α
  | nonEth : Nat → PacketOrOther α
deriving DecidableEq, Repr

/-- `GetType` of a `PacketOrOther` interface value. -/
def PacketOrOther.getType {α : Type} : PacketOrOther α → Nat
  | .eth q => q.GetType
  | .nonEth t => t

/-- `(*eth.Packet).Answers`: no match for an absent or non-Ethernet
candidate, or on an EtherType mismatch; with a payload the match recurses
into the payloads, without one any same-typed frame matches. -/
def Packet.Answers {α : Type} (iface : Pkt.Iface α) (p : Packet α)
    (other : Option (PacketOrOther α)) : Bool :=
  match other with
  | none => false
  | some o =>
    if o.getType ≠ Pkt.Eth then false
    else
      match o with
      | .nonEth _ => false
      | .eth q =>
        if p.typ ≠ q.typ then false
        else
          match p.pkt_payload with
          | some pl => iface.Answers pl q.pkt_payload
          | none => true

end Eth

namespace Pkt

/-- Reading exactly the length of a leading block returns that block and
leaves the rest of the cursor. -/
theorem Buffer.Next_exact (l r : List Nat) (n : Nat) (h : l.length = n) :
    Buffer.Next ⟨l ++ r⟩ n = (some l, ⟨r⟩) := by
  subst h
  simp [Buffer.Next, List.take_left, List.drop_left]

/-- Reading a big-endian 16-bit value from a cursor with at least two
bytes. -/
theorem Buffer.ReadI_cons (t1 t2 : Nat) (rest : List Nat) :
    Buffer.ReadI ⟨t1 :: t2 :: rest⟩ = (some (t1 * 256 + t2), ⟨rest⟩) := rfl

end Pkt

namespace Eth

/-- Evaluation of `Unpack` on a cursor holding a full 14-byte header
followed by `rest`. -/
theorem Unpack_eq {α : Type} (p : Packet α) (dst src rest : List Nat)
    (t1 t2 : Nat) (hd : dst.length = 6) (hs : src.length = 6) :
    Packet.Unpack p ⟨dst ++ (src ++ (t1 :: t2 :: rest))⟩ =
      (none,
       (if t1 * 256 + t2 < 0x0600 then
          { p with DstAddr := dst, SrcAddr := src, typ := Eth.LLC,
                   Length := t1 * 256 + t2 }
        else { p with DstAddr := dst, SrcAddr := src, typ := t1 * 256 + t2 }),
       ⟨rest⟩) := by
  have h1 := Pkt.Buffer.Next_exact dst (src ++ (t1 :: t2 :: rest)) 6 hd
  have h2 := Pkt.Buffer.Next_exact src (t1 :: t2 :: rest) 6 hs
  simp only [Packet.Unpack, h1, h2, Pkt.Buffer.ReadI_cons]

/-- Evaluation of `Pack`: the header bytes appended to the buffer. -/
theorem Pack_eq {α : Type} (p : Packet α) (b : Pkt.Buffer) :
    Packet.Pack p b =
      (none, ⟨b.data ++ p.DstAddr ++ p.SrcAddr ++
        (if p.typ ≠ Eth.LLC then [p.typ / 256 % 256, p.typ % 256]
         else [p.Length / 256 % 256, p.Length % 256])⟩) := by
  simp only [Packet.Pack, Pkt.Buffer.Write, Pkt.Buffer.WriteI]
  split <;> simp [List.append_assoc]

/-- The forward scan is the first table entry whose EtherType column
matches, with `Pkt.Raw` as fallthrough. -/
theorem lookupFwd_eq_find (l : List (Nat × Nat)) (e : Nat) :
    lookupFwd l e =
      ((l.find? fun pr => pr.1 == e).map Prod.snd).getD Pkt.Raw := by
  induction l with
  | nil => rfl
  | cons t rest ih =>
    by_cases h : t.1 = e
    · simp [lookupFwd, List.find?_cons, h]
    · simp [lookupFwd, List.find?_cons, h, ih]

/-- The reverse scan is the first table entry whose canonical-type column
matches, with `Eth.None` as fallthrough. -/
theorem lookupRev_eq_find (l : List (Nat × Nat)) (ty : Nat) :
    lookupRev l ty =
      ((l.find? fun pr => pr.2 == ty).map Prod.fst).getD Eth.None := by
  induction l with
  | nil => rfl
  | cons t rest ih =>
    by_cases h : t.2 = ty
    · simp [lookupRev, List.find?_cons, h]
    · simp [lookupRev, List.find?_cons, h, ih]

/-- The forward scan falls through to `Pkt.Raw` when nothing matches. -/
theorem lookupFwd_not_mem (l : List (Nat × Nat)) (e : Nat)
    (h : ∀ pr ∈ l, pr.1 ≠ e) : lookupFwd l e = Pkt.Raw := by
  induction l with
  | nil => rfl
  | cons t rest ih =>
    have ht := h t (by simp)
    simp only [lookupFwd, ht, if_false]
    exact ih (fun pr hpr => h pr (List.mem_cons_of_mem t hpr))

/-- The reverse scan falls through to `Eth.None` when nothing matches. -/
theorem lookupRev_not_mem (l : List (Nat × Nat)) (ty : Nat)
    (h : ∀ pr ∈ l, pr.2 ≠ ty) : lookupRev l ty = Eth.None := by
  induction l with
  | nil => rfl
  | cons t rest ih =>
    have ht := h t (by simp)
    simp only [lookupRev]
    rw [if_neg ht]
    exact ih (fun pr hpr => h pr (List.mem_cons_of_mem t hpr))

end Eth

namespace Eth

/-- C1: decoding a 14-byte Ethernet header splits on the raw big-endian
type-or-length value: below `0x0600` the raw value becomes the frame's
`Length` field and the logical type the LLC sentinel; otherwise the raw
value becomes the logical EtherType and the `Length` field is not
wire-derived (it keeps the frame's prior value). -/
theorem unpack_typeOrLength_split {α : Type} (p : Packet α)
    (dst src rest : List Nat) (t1 t2 : Nat)
    (hd : dst.length = 6) (hs : src.length = 6)
    (h1 : t1 < 256) (h2 : t2 < 256) :
    (t1 * 256 + t2 < 0x0600 →
      (Packet.Unpack p ⟨dst ++ (src ++ (t1 :: t2 :: rest))⟩).2.1.Length
          = t1 * 256 + t2 ∧
      (Packet.Unpack p ⟨dst ++ (src ++ (t1 :: t2 :: rest))⟩).2.1.typ
          = Eth.LLC) ∧
    (0x0600 ≤ t1 * 256 + t2 →
      (Packet.Unpack p ⟨dst ++ (src ++ (t1 :: t2 :: rest))⟩).2.1.typ
          = t1 * 256 + t2 ∧
      (Packet.Unpack p ⟨dst ++ (src ++ (t1 :: t2 :: rest))⟩).2.1.Length
          = p.Length) := by
  have hu := Unpack_eq p dst src rest t1 t2 hd hs
  refine ⟨fun hlt => ?_, fun hge => ?_⟩
  · rw [hu]
    simp [if_pos hlt]
  · rw [hu]
    simp [if_neg (Nat.not_lt.mpr hge)]

/-- Witness for `unpack_typeOrLength_split` at the spec's own example
(type-or-length bytes `0x00 0x20`, an 802.3 length of 32). -/
theorem unpack_typeOrLength_split_instance :
    (0 : Nat) * 256 + 0x20 < 0x0600 ∧
    ((Packet.Unpack (Make (α := Unit))
        ⟨[0, 0, 0, 0, 0, 0] ++ ([0, 0, 0, 0, 0, 0] ++ (0 :: 0x20 :: []))⟩).2.1.Length
        = 0 * 256 + 0x20 ∧
     (Packet.Unpack (Make (α := Unit))
        ⟨[0, 0, 0, 0, 0, 0] ++ ([0, 0, 0, 0, 0, 0] ++ (0 :: 0x20 :: []))⟩).2.1.typ
        = Eth.LLC) :=
  ⟨by decide,
   (unpack_typeOrLength_split (Make (α := Unit)) [0, 0, 0, 0, 0, 0]
      [0, 0, 0, 0, 0, 0] [] 0 0x20 (by decide) (by decide) (by decide)
      (by decide)).1 (by decide)⟩

/-- C2 (code bug): on a 13-byte input — one byte short of a header —
`Unpack` returns `nil` rather than a BufferUnderrun error, and has already
overwritten the destination and source addresses; through the stale zeroed
`Type` field it even rewrites `Type` to the LLC sentinel and `Length` to 0.
The source discards the cursor's error return and returns `nil`
unconditionally. -/
theorem unpack_short_buffer_returns_nil_and_mutates :
    (Packet.Unpack (Make (α := Unit))
        ⟨[1, 2, 3, 4, 5, 6, 7, 8, 9, 10, 11, 12, 13]⟩).1 = none ∧
    (Packet.Unpack (Make (α := Unit))
        ⟨[1, 2, 3, 4, 5, 6, 7, 8, 9, 10, 11, 12, 13]⟩).1
      ≠ some Pkt.Error.bufferUnderrun ∧
    (Packet.Unpack (Make (α := Unit))
        ⟨[1, 2, 3, 4, 5, 6, 7, 8, 9, 10, 11, 12, 13]⟩).2.1.DstAddr
      = [1, 2, 3, 4, 5, 6] ∧
    (Packet.Unpack (Make (α := Unit))
        ⟨[1, 2, 3, 4, 5, 6, 7, 8, 9, 10, 11, 12, 13]⟩).2.1.SrcAddr
      = [7, 8, 9, 10, 11, 12] ∧
    (Packet.Unpack (Make (α := Unit))
        ⟨[1, 2, 3, 4, 5, 6, 7, 8, 9, 10, 11, 12, 13]⟩).2.1.DstAddr
      ≠ (Make (α := Unit)).DstAddr ∧
    (Packet.Unpack (Make (α := Unit))
        ⟨[1, 2, 3, 4, 5, 6, 7, 8, 9, 10, 11, 12, 13]⟩).2.1.typ = Eth.LLC ∧
    (Packet.Unpack (Make (α := Unit))
        ⟨[1, 2, 3, 4, 5, 6, 7, 8, 9, 10, 11, 12, 13]⟩).2.1.Length = 0 := by
  decide

/-- C7: a raw type-or-length value below `0x0600` decodes to the LLC
sentinel — both as the logical type and, through the table, as the
canonical type — with `Length` equal to the raw value, and re-encoding the
decoded frame writes back exactly the original 14 header bytes, in
particular the same 2-byte type-or-length field. -/
theorem llc_decode_reencode_roundtrip {α : Type} (dst src : List Nat)
    (t1 t2 : Nat) (hd : dst.length = 6) (hs : src.length = 6)
    (h2 : t2 < 256) (hlt : t1 * 256 + t2 < 0x0600) :
    (Packet.Unpack (Make (α := α)) ⟨dst ++ (src ++ [t1, t2])⟩).2.1.typ
        = Eth.LLC ∧
    (Packet.Unpack (Make (α := α)) ⟨dst ++ (src ++ [t1, t2])⟩).2.1.PayloadType
        = Pkt.LLC ∧
    (Packet.Unpack (Make (α := α)) ⟨dst ++ (src ++ [t1, t2])⟩).2.1.Length
        = t1 * 256 + t2 ∧
    (Packet.Pack
        ((Packet.Unpack (Make (α := α)) ⟨dst ++ (src ++ [t1, t2])⟩).2.1)
        ⟨[]⟩).2.data
      = dst ++ (src ++ [t1, t2]) := by
  have hu := Unpack_eq (Make (α := α)) dst src [] t1 t2 hd hs
  rw [hu, if_pos hlt]
  have e1 : (t1 * 256 + t2) / 256 % 256 = t1 := by omega
  have e2 : (t1 * 256 + t2) % 256 = t2 := by omega
  have hp : EtherTypeToType Eth.LLC = Pkt.LLC := by decide
  refine ⟨rfl, hp, rfl, ?_⟩
  rw [Pack_eq]
  simp [e1, e2, List.append_assoc]

/-- Witness for `llc_decode_reencode_roundtrip` at the length value 32. -/
theorem llc_decode_reencode_roundtrip_instance :
    (0 : Nat) * 256 + 0x20 < 0x0600 ∧
    (Packet.Unpack (Make (α := Unit))
        ⟨[0, 0, 0, 0, 0, 0] ++ ([0, 0, 0, 0, 0, 0] ++ [0, 0x20])⟩).2.1.Length
      = 0 * 256 + 0x20 ∧
    (Packet.Pack
        ((Packet.Unpack (Make (α := Unit))
            ⟨[0, 0, 0, 0, 0, 0] ++ ([0, 0, 0, 0, 0, 0] ++ [0, 0x20])⟩).2.1)
        ⟨[]⟩).2.data
      = [0, 0, 0, 0, 0, 0] ++ ([0, 0, 0, 0, 0, 0] ++ [0, 0x20]) :=
  ⟨by decide,
   (llc_decode_reencode_roundtrip [0, 0, 0, 0, 0, 0] [0, 0, 0, 0, 0, 0]
      0 0x20 (by decide) (by decide) (by decide) (by decide)).2.2.1,
   (llc_decode_reencode_roundtrip [0, 0, 0, 0, 0, 0] [0, 0, 0, 0, 0, 0]
      0 0x20 (by decide) (by decide) (by decide) (by decide)).2.2.2⟩

end Eth

namespace Eth

/-- C3 counterexample: decode→re-encode of a header-only Q-in-Q frame
reproduces the original 14 bytes — the EtherType is written back as
`0x88a8`, not as the primary VLAN EtherType `0x8100` the claim asserts,
because `Pack` writes `Type` directly and never consults the translation
table. -/
theorem qinq_roundtrip_preserves_qinq_cex :
    (Packet.Pack
        ((Packet.Unpack (Make (α := Unit))
            ⟨[9, 9, 9, 9, 9, 9, 8, 8, 8, 8, 8, 8, 0x88, 0xa8]⟩).2.1)
        ⟨[]⟩).2.data
      = [9, 9, 9, 9, 9, 9, 8, 8, 8, 8, 8, 8, 0x88, 0xa8] ∧
    (Packet.Pack
        ((Packet.Unpack (Make (α := Unit))
            ⟨[9, 9, 9, 9, 9, 9, 8, 8, 8, 8, 8, 8, 0x88, 0xa8]⟩).2.1)
        ⟨[]⟩).2.data
      ≠ [9, 9, 9, 9, 9, 9, 8, 8, 8, 8, 8, 8, 0x81, 0x00] := by
  decide

/-- C3 amended: for every EtherType of the translation table that is at
least `0x0600` — the Q-in-Q EtherType included — decode→re-encode of a
header-only frame reproduces the original 14 bytes exactly; the
Q-in-Q-to-VLAN lossiness lives only in the canonical-type reverse mapping
used by `SetPayload`, not in the header round trip. -/
theorem high_ethertype_roundtrip_exact {α : Type} (e : Nat)
    (dst src : List Nat)
    (he : e ∈ (ethertype_to_type_map.map Prod.fst).filter
            (fun x => decide (0x0600 ≤ x)))
    (hd : dst.length = 6) (hs : src.length = 6) :
    (Packet.Pack
        ((Packet.Unpack (Make (α := α))
            ⟨dst ++ (src ++ [e / 256, e % 256])⟩).2.1)
        ⟨[]⟩).2.data
      = dst ++ (src ++ [e / 256, e % 256]) := by
  have hl : (ethertype_to_type_map.map Prod.fst).filter
      (fun x => decide (0x0600 ≤ x))
      = [0x0806, 0x0800, 0x86dd, 0x88cc, 0x8100, 0x88a8, 0x22f3, 0x0842] := by
    decide
  rw [hl] at he
  fin_cases he <;>
  · norm_num
    rw [Unpack_eq (Make (α := α)) dst src [] _ _ hd hs]
    rw [Pack_eq]
    norm_num [Eth.LLC]

/-- Witness for `high_ethertype_roundtrip_exact` at the IPv4 EtherType. -/
theorem high_ethertype_roundtrip_exact_instance :
    (0x0800 : Nat) ∈ (ethertype_to_type_map.map Prod.fst).filter
        (fun x => decide (0x0600 ≤ x)) ∧
    (Packet.Pack
        ((Packet.Unpack (Make (α := Unit))
            ⟨[1, 2, 3, 4, 5, 6] ++
              ([7, 8, 9, 10, 11, 12] ++ [0x0800 / 256, 0x0800 % 256])⟩).2.1)
        ⟨[]⟩).2.data
      = [1, 2, 3, 4, 5, 6] ++
          ([7, 8, 9, 10, 11, 12] ++ [0x0800 / 256, 0x0800 % 256]) :=
  ⟨by decide,
   high_ethertype_roundtrip_exact 0x0800 [1, 2, 3, 4, 5, 6]
     [7, 8, 9, 10, 11, 12] (by decide) (by decide) (by decide)⟩

end Eth

namespace Eth

/-- A payload stub over `Unit` reporting a fixed canonical type `t` and a
fixed length `L`, used to probe the frame operations at concrete
instances. -/
def stubIface (t L : Nat) : Pkt.Iface Unit :=
  { GetType := fun _ => t
    GetLength := fun _ => L
    Answers := fun _ _ => false }

/-- C4 counterexample: with a payload reporting the `uint16` length 65535
attached to a fresh (non-LLC) frame, `GetLength` wraps: it returns 13 — not
`14 + 65535` — and in particular falls below the header length 14. -/
theorem getLength_wrap_cex :
    Packet.GetLength (stubIface 999 65535)
        { Make (α := Unit) with pkt_payload := some () } = 13 ∧
    (13 : Nat) ≠ 14 + 65535 ∧ ¬ (14 ≤ (13 : Nat)) := by
  decide

/-- C4 amended: `GetLength` returns the stored `Length` for an LLC-typed
frame with nonzero stored length; otherwise `(14 + payload length) % 65536`
when a payload is present (equal to `14 + payload length` whenever that
length is at most 65521) and 14 without one; a freshly constructed frame
reports 14; and the result is at least 14 whenever any present payload
reports at most 65521. The function is total. -/
theorem getLength_spec {α : Type} (iface : Pkt.Iface α) (p : Packet α) :
    (p.typ = Eth.LLC → p.Length ≠ 0 →
      Packet.GetLength iface p = p.Length) ∧
    (¬ (p.typ = Eth.LLC ∧ p.Length ≠ 0) →
      (∀ pl, p.pkt_payload = some pl →
        Packet.GetLength iface p = (14 + iface.GetLength pl) % 65536) ∧
      (p.pkt_payload = none → Packet.GetLength iface p = 14) ∧
      ((∀ pl, p.pkt_payload = some pl → iface.GetLength pl ≤ 65521) →
        14 ≤ Packet.GetLength iface p)) ∧
    Packet.GetLength iface (Make (α := α)) = 14 := by
  refine ⟨?_, ?_, ?_⟩
  · intro h1 h2
    simp [Packet.GetLength, h1, Nat.pos_of_ne_zero h2]
  · intro hng
    have hcond : ¬ (p.Length > 0 ∧ p.typ = Eth.LLC) := by
      intro hc
      exact hng ⟨hc.2, Nat.pos_iff_ne_zero.mp hc.1⟩
    refine ⟨?_, ?_, ?_⟩
    · intro pl hpl
      simp only [Packet.GetLength, if_neg hcond, hpl]
      omega
    · intro hnone
      simp [Packet.GetLength, hcond, hnone]
    · intro hb
      cases hp : p.pkt_payload with
      | none => simp [Packet.GetLength, hcond, hp]
      | some pl =>
        have hL := hb pl hp
        simp only [Packet.GetLength, if_neg hcond, hp]
        omega
  · rfl

/-- Witness for `getLength_spec`, exercising the LLC branch, the payload
branch, the fresh-frame value and the lower bound at concrete frames. -/
theorem getLength_spec_instance :
    Packet.GetLength (stubIface 999 20)
        { Make (α := Unit) with typ := Eth.LLC, Length := 50,
                                pkt_payload := some () } = 50 ∧
    Packet.GetLength (stubIface 999 20)
        { Make (α := Unit) with pkt_payload := some () }
      = (14 + 20) % 65536 ∧
    Packet.GetLength (stubIface 999 20) (Make (α := Unit)) = 14 ∧
    14 ≤ Packet.GetLength (stubIface 999 20)
        { Make (α := Unit) with pkt_payload := some () } :=
  ⟨(getLength_spec (stubIface 999 20)
      { Make (α := Unit) with typ := Eth.LLC, Length := 50,
                              pkt_payload := some () }).1 rfl (by decide),
   ((getLength_spec (stubIface 999 20)
      { Make (α := Unit) with pkt_payload := some () }).2.1
      (by decide)).1 () rfl,
   (getLength_spec (stubIface 999 20) (Make (α := Unit))).2.2,
   ((getLength_spec (stubIface 999 20)
      { Make (α := Unit) with pkt_payload := some () }).2.1
      (by decide)).2.2 (fun pl _ => by cases pl; decide)⟩

/-- C5 counterexample: attaching a payload of reported length 65535 to a
fresh frame makes the subsequent `GetLength` wrap to 13, not `14 + 65535`
as the claim states. -/
theorem setPayload_wrap_cex :
    Packet.GetLength (stubIface 999 65535)
        (Packet.SetPayload (stubIface 999 65535)
          (Make (α := Unit)) ()).2 = 13 ∧
    (13 : Nat) ≠ 14 + 65535 := by
  decide

/-- C5 amended: `SetPayload` on a fresh frame stores the payload, signals
no error, sets the EtherType to the translation table's reverse mapping of
the payload's canonical type — the `None` sentinel (`0x0000`) when that
type is unmapped, silently — and makes `GetLength` return
`(14 + L) % 65536` for a payload of reported length `L` (equal to `14 + L`
whenever `L ≤ 65521`). -/
theorem setPayload_spec {α : Type} (iface : Pkt.Iface α) (pl : α) :
    (Packet.SetPayload iface (Make (α := α)) pl).1 = none ∧
    (Packet.SetPayload iface (Make (α := α)) pl).2.pkt_payload = some pl ∧
    (Packet.SetPayload iface (Make (α := α)) pl).2.typ
      = TypeToEtherType (iface.GetType pl) ∧
    ((∀ pr ∈ ethertype_to_type_map, pr.2 ≠ iface.GetType pl) →
      (Packet.SetPayload iface (Make (α := α)) pl).2.typ = Eth.None) ∧
    Packet.GetLength iface (Packet.SetPayload iface (Make (α := α)) pl).2
      = (14 + iface.GetLength pl) % 65536 := by
  refine ⟨rfl, rfl, rfl, ?_, ?_⟩
  · intro h
    exact lookupRev_not_mem ethertype_to_type_map (iface.GetType pl) h
  · by_cases hc : ((Packet.SetPayload iface (Make (α := α)) pl).2.Length > 0 ∧
        (Packet.SetPayload iface (Make (α := α)) pl).2.typ = Eth.LLC)
    · rw [Packet.GetLength, if_pos hc]
      simp only [Packet.SetPayload, Make]
    · rw [Packet.GetLength, if_neg hc]
      simp only [Packet.SetPayload, Make]
      omega

/-- Witness for `setPayload_spec` at an unmapped canonical type (999) and
reported length 5: the EtherType falls back to the `None` sentinel and
`GetLength` reports 19. -/
theorem setPayload_spec_instance :
    (Packet.SetPayload (stubIface 999 5) (Make (α := Unit)) ()).2.typ
      = Eth.None ∧
    Packet.GetLength (stubIface 999 5)
        (Packet.SetPayload (stubIface 999 5) (Make (α := Unit)) ()).2
      = (14 + 5) % 65536 :=
  ⟨(setPayload_spec (stubIface 999 5) ()).2.2.2.1 (by decide),
   (setPayload_spec (stubIface 999 5) ()).2.2.2.2⟩

/-- C9 counterexample: with a payload of reported length 65535, the cached
`Length` after two `SetPayload` calls on a fresh frame is 12 (two wrapping
increments), not the claim's `14 + 2·65535`. -/
theorem setPayload_twice_wrap_cex :
    ((Packet.SetPayload (stubIface 999 65535)
        ((Packet.SetPayload (stubIface 999 65535)
          (Make (α := Unit)) ()).2) ()).2).Length = 12 ∧
    (12 : Nat) ≠ 14 + 2 * 65535 := by
  decide

/-- C9 amended: two `SetPayload` calls with the same payload of reported
length `L` double-count: the fresh frame's cached `Length` field is
incremented by `L` twice in `uint16` arithmetic, ending at
`(14 + 2·L) % 65536` (the claim's `14 + 2·L`, modulo the wrap) — which
differs from the recomputed single-attachment value whenever
`L % 65536 ≠ 0`. -/
theorem setPayload_twice_double_counts {α : Type} (iface : Pkt.Iface α)
    (pl : α) :
    ((Packet.SetPayload iface
        ((Packet.SetPayload iface (Make (α := α)) pl).2) pl).2).Length
      = (14 + 2 * iface.GetLength pl) % 65536 ∧
    (iface.GetLength pl % 65536 ≠ 0 →
      ((Packet.SetPayload iface
          ((Packet.SetPayload iface (Make (α := α)) pl).2) pl).2).Length
        ≠ (14 + iface.GetLength pl) % 65536) := by
  constructor
  · simp only [Packet.SetPayload, Make]
    omega
  · intro h
    simp only [Packet.SetPayload, Make]
    omega

/-- Witness for `setPayload_twice_double_counts` at reported length 5: the
cached length ends at 24, not the recomputed 19. -/
theorem setPayload_twice_double_counts_instance :
    ((Packet.SetPayload (stubIface 999 5)
        ((Packet.SetPayload (stubIface 999 5)
          (Make (α := Unit)) ()).2) ()).2).Length = (14 + 2 * 5) % 65536 ∧
    ((Packet.SetPayload (stubIface 999 5)
        ((Packet.SetPayload (stubIface 999 5)
          (Make (α := Unit)) ()).2) ()).2).Length ≠ (14 + 5) % 65536 :=
  ⟨(setPayload_twice_double_counts (stubIface 999 5) ()).1,
   (setPayload_twice_double_counts (stubIface 999 5) ()).2 (by decide)⟩

end Eth

namespace Eth

/-- C6: `Answers` rejects an absent candidate and a candidate of another
protocol family, rejects any logical EtherType/LLC-sentinel mismatch,
recurses into the payloads (the frame's payload must answer the
candidate's payload) when the frame carries one, and accepts any
same-typed Ethernet candidate — whatever its payload — when the frame
carries none. -/
theorem answers_spec {α : Type} (iface : Pkt.Iface α) (p q : Packet α)
    (t : Nat) :
    Packet.Answers iface p none = false ∧
    (t ≠ Pkt.Eth →
      Packet.Answers iface p (some (.nonEth t)) = false) ∧
    (p.typ ≠ q.typ →
      Packet.Answers iface p (some (.eth q)) = false) ∧
    (p.typ = q.typ → ∀ pl, p.pkt_payload = some pl →
      Packet.Answers iface p (some (.eth q))
        = iface.Answers pl q.pkt_payload) ∧
    (p.typ = q.typ → p.pkt_payload = none →
      Packet.Answers iface p (some (.eth q)) = true) := by
  refine ⟨rfl, ?_, ?_, ?_, ?_⟩
  · intro ht
    simp [Packet.Answers, PacketOrOther.getType, ht]
  · intro hne
    simp [Packet.Answers, PacketOrOther.getType, Packet.GetType, hne]
  · intro heq pl hpl
    simp [Packet.Answers, PacketOrOther.getType, Packet.GetType, heq, hpl]
  · intro heq hnone
    simp [Packet.Answers, PacketOrOther.getType, Packet.GetType, heq, hnone]

/-- Witness for `answers_spec` on concrete frames: an IPv4-typed bare
frame answers an IPv4 frame (even one carrying a payload), answers neither
`none`, an ARP-typed frame, nor a non-Ethernet packet, and with a payload
attached the match defers to the payload's own `Answers`. -/
theorem answers_spec_instance :
    Packet.Answers (stubIface 999 5)
        { Make (α := Unit) with typ := Eth.IPv4 } none = false ∧
    Packet.Answers (stubIface 999 5)
        { Make (α := Unit) with typ := Eth.IPv4 }
        (some (.nonEth Pkt.ARP)) = false ∧
    Packet.Answers (stubIface 999 5)
        { Make (α := Unit) with typ := Eth.IPv4 }
        (some (.eth { Make (α := Unit) with typ := Eth.ARP })) = false ∧
    Packet.Answers (stubIface 999 5)
        { Make (α := Unit) with typ := Eth.IPv4, pkt_payload := some () }
        (some (.eth { Make (α := Unit) with typ := Eth.IPv4 }))
      = (stubIface 999 5).Answers ()
          ({ Make (α := Unit) with typ := Eth.IPv4 } : Packet Unit).pkt_payload ∧
    Packet.Answers (stubIface 999 5)
        { Make (α := Unit) with typ := Eth.IPv4 }
        (some (.eth { Make (α := Unit) with
                      typ := Eth.IPv4, pkt_payload := some () })) = true :=
  ⟨(answers_spec (stubIface 999 5)
      { Make (α := Unit) with typ := Eth.IPv4 }
      { Make (α := Unit) with typ := Eth.IPv4 } 0).1,
   (answers_spec (stubIface 999 5)
      { Make (α := Unit) with typ := Eth.IPv4 }
      { Make (α := Unit) with typ := Eth.IPv4 } Pkt.ARP).2.1 (by decide),
   (answers_spec (stubIface 999 5)
      { Make (α := Unit) with typ := Eth.IPv4 }
      { Make (α := Unit) with typ := Eth.ARP } 0).2.2.1 (by decide),
   (answers_spec (stubIface 999 5)
      { Make (α := Unit) with typ := Eth.IPv4, pkt_payload := some () }
      { Make (α := Unit) with typ := Eth.IPv4 } 0).2.2.2.1 rfl () rfl,
   (answers_spec (stubIface 999 5)
      { Make (α := Unit) with typ := Eth.IPv4 }
      { Make (α := Unit) with
        typ := Eth.IPv4, pkt_payload := some () } 0).2.2.2.2 rfl rfl⟩

/-- C8: both translation directions return the first matching table entry,
and fall back — never an error — to the `Raw` canonical sentinel (forward)
or the `None` EtherType `0x0000` (reverse) when the query is absent from
the respective column. -/
theorem translation_first_match_fallback (e ty : Nat) :
    EtherTypeToType e
      = ((ethertype_to_type_map.find? fun pr => pr.1 == e).map
          Prod.snd).getD Pkt.Raw ∧
    ((∀ pr ∈ ethertype_to_type_map, pr.1 ≠ e) →
      EtherTypeToType e = Pkt.Raw) ∧
    TypeToEtherType ty
      = ((ethertype_to_type_map.find? fun pr => pr.2 == ty).map
          Prod.fst).getD Eth.None ∧
    ((∀ pr ∈ ethertype_to_type_map, pr.2 ≠ ty) →
      TypeToEtherType ty = Eth.None) :=
  ⟨lookupFwd_eq_find ethertype_to_type_map e,
   fun h => lookupFwd_not_mem ethertype_to_type_map e h,
   lookupRev_eq_find ethertype_to_type_map ty,
   fun h => lookupRev_not_mem ethertype_to_type_map ty h⟩

/-- Witness for `translation_first_match_fallback` at an EtherType and a
canonical type absent from the table. -/
theorem translation_first_match_fallback_instance :
    EtherTypeToType 0x1234 = Pkt.Raw ∧ TypeToEtherType 999 = Eth.None :=
  ⟨(translation_first_match_fallback 0x1234 999).2.1 (by decide),
   (translation_first_match_fallback 0x1234 999).2.2.2 (by decide)⟩

/-- C10: on every canonical type of the translation table's image,
reverse-then-forward translation is the identity, while forward-then-
reverse is not the identity on EtherTypes: Q-in-Q maps forward to the VLAN
canonical type, which maps back to the primary VLAN EtherType. -/
theorem rev_then_fwd_identity :
    (∀ ty ∈ ethertype_to_type_map.map Prod.snd,
      EtherTypeToType (TypeToEtherType ty) = ty) ∧
    TypeToEtherType (EtherTypeToType Eth.QinQ) = Eth.VLAN ∧
    Eth.VLAN ≠ Eth.QinQ := by
  refine ⟨?_, by decide, by decide⟩
  intro ty hty
  have hl : ethertype_to_type_map.map Prod.snd
      = [Pkt.None, Pkt.ARP, Pkt.IPv4, Pkt.IPv6, Pkt.LLC, Pkt.LLDP,
         Pkt.VLAN, Pkt.VLAN, Pkt.TRILL, Pkt.WoL] := by decide
  rw [hl] at hty
  fin_cases hty <;> decide

/-- Witness for `rev_then_fwd_identity` at the VLAN canonical type. -/
theorem rev_then_fwd_identity_instance :
    Pkt.VLAN ∈ ethertype_to_type_map.map Prod.snd ∧
    EtherTypeToType (TypeToEtherType Pkt.VLAN) = Pkt.VLAN :=
  ⟨by decide, rev_then_fwd_identity.1 Pkt.VLAN (by decide)⟩

end Eth
